import Mathlib

/-!
Verification development for the store-management backend
(Express + Postgres, `src/unnamed/part_000`, multi-item version).

The database state is embedded as a `Store` value holding the four tables
the request-lifecycle logic touches (`components`, `requests`,
`request_items`, `usage_history`).  Each HTTP handler relevant to the
claims is translated into a pure function from a `Store` (plus request
body) to an `ApiResult`: `ok` carries the committed state, `err` carries
the JSON error payload.  An `err` result models the handler's `ROLLBACK`:
no state is committed, the caller keeps the pre-state.  Timestamps are
modelled as abstract `Nat` ticks (the handlers only ever store `now`).
-/

/-- Row of the `components` table.  `quantity` is a signed SQL INTEGER. -/
structure Component where
  name : String
  quantity : Int
  unit : String := "pcs"
  minStock : Int := 0
  location : String := ""
  supplier : String := ""
  imageUrl : String := ""
  categoryName : String := ""
  consumable : Bool
deriving Repr, DecidableEq

/-- Row of the `requests` table.  `status` is stored as TEXT, exactly as in
the schema (`'PENDING' | 'APPROVED' | 'RETURNED'`). -/
structure Request where
  personnelName : String
  status : String
  requestedAt : Nat
  approvedAt : Option Nat := none
  returnedAt : Option Nat := none
  faceImage : Option String := none
deriving Repr, DecidableEq

/-- Row of the `request_items` table (the serial `id` is represented by the
row's position in the list). -/
structure RequestItemRow where
  requestId : Nat
  componentId : Nat
  quantity : Int
  description : String := ""
deriving Repr, DecidableEq

/-- Row of the `usage_history` table. -/
structure UsageRecord where
  componentId : Nat
  quantity : Int
  type : String
  project : String
  notes : String
  date : Nat
deriving Repr, DecidableEq

/-- JSON error payload sent by the handlers.  `available` is present only
when the handler includes an `available` field next to `error`. -/
structure ErrorPayload where
  httpStatus : Nat
  error : String
  available : Option Int := none
deriving Repr, DecidableEq

/-- Result of a handler: `ok` commits the new state, `err` models the
`ROLLBACK` path (nothing is committed). -/
inductive ApiResult (α : Type) where
  | ok (value : α)
  | err (payload : ErrorPayload)
deriving Repr, DecidableEq

namespace ApiResult

def isOk {α : Type} : ApiResult α → Bool
  | .ok _ => true
  | .err _ => false

def map {α β : Type} (f : α → β) : ApiResult α → ApiResult β
  | .ok v => .ok (f v)
  | .err e => .err e

/-- Extract the `ok` value, with a fallback for the `err` case. -/
def okD {α : Type} (r : ApiResult α) (d : α) : α :=
  match r with
  | .ok v => v
  | .err _ => d

end ApiResult

/-- The database tables the request-lifecycle logic reads and writes.
Association lists keyed by the serial `id` columns; `next…Id` model the
sequences backing the SERIAL keys. -/
structure Store where
  components : List (Nat × Component)
  requests : List (Nat × Request)
  requestItems : List RequestItemRow
  usageHistory : List UsageRecord
  nextComponentId : Nat := 1
  nextRequestId : Nat := 1
deriving Repr, DecidableEq

/-- `SELECT … WHERE id = $1` on an association list. -/
def lookupIn {α : Type} (l : List (Nat × α)) (id : Nat) : Option α :=
  (l.find? (fun p => p.1 == id)).map (fun p => p.2)

def lookupComp (st : Store) (cid : Nat) : Option Component :=
  lookupIn st.components cid

def lookupReq (st : Store) (id : Nat) : Option Request :=
  lookupIn st.requests id

/-- Current quantity of a component, if the row exists. -/
def quantityOf (st : Store) (cid : Nat) : Option Int :=
  (lookupComp st cid).map (fun c => c.quantity)

/-- Status of a request, if the row exists. -/
def requestStatus (st : Store) (id : Nat) : Option String :=
  (lookupReq st id).map (fun r => r.status)

/-- `UPDATE components SET quantity = f(quantity) WHERE id = $2`. -/
def updateComponentQty (st : Store) (cid : Nat) (f : Int → Int) : Store :=
  { st with components := st.components.map (fun p =>
      if p.1 == cid then (p.1, { p.2 with quantity := f p.2.quantity }) else p) }

/-- `UPDATE requests SET … WHERE id = $1`. -/
def updateRequest (st : Store) (id : Nat) (f : Request → Request) : Store :=
  { st with requests := st.requests.map (fun p =>
      if p.1 == id then (p.1, f p.2) else p) }

/-- `INSERT INTO usage_history …`. -/
def appendUsage (st : Store) (u : UsageRecord) : Store :=
  { st with usageHistory := st.usageHistory ++ [u] }

/-- One row of the items query in `PATCH /requests/:id/status`:
`SELECT ri.…, c.name AS component_name, c.unit, c.consumable,
c.quantity AS component_quantity FROM request_items ri JOIN components c …`.
`component_quantity` is the snapshot read before any update of the
transition runs. -/
structure JoinedItem where
  component_id : Nat
  quantity : Int
  description : String
  component_name : String
  unit : String
  consumable : Bool
  component_quantity : Int
deriving Repr, DecidableEq

/-- The `request_items ⋈ components` read for one request (JOIN semantics:
an item row without a matching component row is dropped). -/
def itemsOf (st : Store) (id : Nat) : List JoinedItem :=
  st.requestItems.filterMap (fun ri =>
    if ri.requestId == id then
      (lookupComp st ri.componentId).map (fun c =>
        { component_id := ri.componentId
          quantity := ri.quantity
          description := ri.description
          component_name := c.name
          unit := c.unit
          consumable := c.consumable
          component_quantity := c.quantity })
    else none)

/-- Usage row inserted per item on approval: `(-Math.abs(qty), 'remove',
'Request by <personnel_name>')`. -/
def mkRemoveRecord (pn : String) (now : Nat) (it : JoinedItem) : UsageRecord :=
  { componentId := it.component_id
    quantity := -(|it.quantity|)
    type := "remove"
    project := "Request by " ++ pn
    notes := it.description
    date := now }

/-- Usage row inserted per non-consumable item on return: `(Math.abs(qty),
'add', 'Return by <personnel_name>')`. -/
def mkAddRecord (pn : String) (now : Nat) (it : JoinedItem) : UsageRecord :=
  { componentId := it.component_id
    quantity := |it.quantity|
    type := "add"
    project := "Return by " ++ pn
    notes := it.description
    date := now }

/-- Loop body of the APPROVED branch: debit the component by the item
quantity, then insert the usage row. -/
def approveStep (pn : String) (now : Nat) (s : Store) (it : JoinedItem) : Store :=
  appendUsage (updateComponentQty s it.component_id (fun q => q - it.quantity))
    (mkRemoveRecord pn now it)

/-- Loop body of the RETURNED branch: only `item.consumable === false`
items credit the component and insert a usage row. -/
def returnStep (pn : String) (now : Nat) (s : Store) (it : JoinedItem) : Store :=
  if it.consumable = false then
    appendUsage (updateComponentQty s it.component_id (fun q => q + it.quantity))
      (mkAddRecord pn now it)
  else s

/-- APPROVED branch of `PATCH /requests/:id/status`: check every item
against its `component_quantity` snapshot (fail on the first shortfall,
reporting only the component name), then set `status`/`approved_at` and
run the debit loop. -/
def approveBranch (st : Store) (id : Nat) (row : Request)
    (items : List JoinedItem) (now : Nat) : ApiResult Store :=
  match items.find? (fun it => decide (it.component_quantity < it.quantity)) with
  | some it =>
      .err { httpStatus := 400
             error := "Insufficient stock for " ++
               (if it.component_name = "" then "item" else it.component_name) }
  | none =>
      let st1 := updateRequest st id
        (fun r => { r with status := "APPROVED", approvedAt := some now })
      .ok (items.foldl (approveStep row.personnelName now) st1)

/-- RETURNED branch of `PATCH /requests/:id/status`: set
`status`/`returned_at` unconditionally, then run the credit loop over the
non-consumable items. -/
def returnedBranch (st : Store) (id : Nat) (row : Request)
    (items : List JoinedItem) (now : Nat) : ApiResult Store :=
  let st1 := updateRequest st id
    (fun r => { r with status := "RETURNED", returnedAt := some now })
  .ok (items.foldl (returnStep row.personnelName now) st1)

/-- PENDING branch: `UPDATE requests SET status = 'PENDING'` only —
`approved_at`/`returned_at` are left as they are and no ledger or usage
write happens. -/
def pendingBranch (st : Store) (id : Nat) : ApiResult Store :=
  .ok (updateRequest st id (fun r => { r with status := "PENDING" }))

/-- `PATCH /requests/:id/status` (multi-item version).  Order of checks as
in the source: status validity, request existence (`FOR UPDATE`), items
join, non-empty items, then the branch on the target status.  The current
status of the request is never inspected. -/
def patchRequestStatus (st : Store) (id : Nat) (status : String) (now : Nat) :
    ApiResult Store :=
  if !(["PENDING", "APPROVED", "RETURNED"].contains status) then
    .err { httpStatus := 400, error := "Invalid status" }
  else
    match lookupReq st id with
    | none => .err { httpStatus := 404, error := "Request not found" }
    | some row =>
      let items := itemsOf st id
      if items.isEmpty then
        .err { httpStatus := 400, error := "No items on this request" }
      else if status = "APPROVED" then approveBranch st id row items now
      else if status = "RETURNED" then returnedBranch st id row items now
      else pendingBranch st id

/-- Item of a request body (`{componentId, quantity, description}`).
`componentId = 0` plays the role of a missing/falsy `componentId`. -/
structure ItemInput where
  componentId : Nat
  quantity : Int
  description : String := ""
deriving Repr, DecidableEq

/-- Row inserted by `INSERT INTO request_items (request_id, component_id,
quantity, description)`. -/
def mkItemRow (requestId : Nat) (it : ItemInput) : RequestItemRow :=
  { requestId := requestId, componentId := it.componentId,
    quantity := it.quantity, description := it.description }

/-- The per-item availability loop shared by `POST /requests` and
`PATCH /requests/:id`: resolve the component (404 on the first miss) and
fail on the first item with `comp.quantity <= 0 || comp.quantity <
item.quantity`, reporting the component name and its available quantity. -/
def checkItemsStock (st : Store) : List ItemInput → Option ErrorPayload
  | [] => none
  | it :: rest =>
    match lookupComp st it.componentId with
    | none => some { httpStatus := 404, error := "Component not found" }
    | some comp =>
      if comp.quantity ≤ 0 ∨ comp.quantity < it.quantity then
        some { httpStatus := 400
               error := "Requested quantity for " ++ comp.name ++
                 " exceeds available stock"
               available := some comp.quantity }
      else checkItemsStock st rest

/-- Body validation shared by `POST /requests` and `PATCH /requests/:id`:
`!item.componentId || !item.quantity || item.quantity <= 0`. -/
def badItem (it : ItemInput) : Bool :=
  it.componentId == 0 || it.quantity == 0 || decide (it.quantity ≤ 0)

/-- `POST /requests` (multi-item version): validate the body, run the
advisory availability loop, then insert the request row and its item rows
in one transaction. -/
def postRequests (st : Store) (personnelName : String) (items : List ItemInput)
    (faceImage : Option String) (now : Nat) : ApiResult (Nat × Store) :=
  if personnelName = "" ∨ items.isEmpty then
    .err { httpStatus := 400, error := "personnelName and items are required" }
  else if items.any badItem then
    .err { httpStatus := 400, error := "Each item needs componentId and quantity > 0" }
  else
    match checkItemsStock st items with
    | some e => .err e
    | none =>
      let rid := st.nextRequestId
      let req : Request :=
        { personnelName := personnelName, status := "PENDING",
          requestedAt := now, faceImage := faceImage }
      .ok (rid,
        { st with
          requests := st.requests ++ [(rid, req)],
          nextRequestId := rid + 1,
          requestItems := st.requestItems ++ items.map (mkItemRow rid) })

/-- Success path of `PATCH /requests/:id`: update
`personnel_name`/`face_image` (`COALESCE(new, old)`), delete the request's
item rows and insert the new ones. -/
def editApply (st : Store) (id : Nat) (personnelName : String)
    (items : List ItemInput) (faceImage : Option String) : Store :=
  let st1 := updateRequest st id (fun r =>
    { r with
      personnelName := personnelName,
      faceImage := match faceImage with
        | some f => some f
        | none => r.faceImage })
  { st1 with
    requestItems :=
      (st1.requestItems.filter (fun ri => ri.requestId != id)) ++
      items.map (mkItemRow id) }

/-- `PATCH /requests/:id` (edit, only while PENDING): validate the body,
lock the request, refuse unless `status === 'PENDING'`, re-run the
availability loop, then apply the edit.  The `components` and
`usage_history` tables are never written. -/
def patchRequest (st : Store) (id : Nat) (personnelName : String)
    (items : List ItemInput) (faceImage : Option String) : ApiResult Store :=
  if personnelName = "" ∨ items.isEmpty then
    .err { httpStatus := 400, error := "personnelName and items are required" }
  else if items.any badItem then
    .err { httpStatus := 400, error := "Each item needs componentId and quantity > 0" }
  else
    match lookupReq st id with
    | none => .err { httpStatus := 404, error := "Request not found" }
    | some existing =>
      if existing.status ≠ "PENDING" then
        .err { httpStatus := 400, error := "Only pending requests can be edited" }
      else
        match checkItemsStock st items with
        | some e => .err e
        | none => .ok (editApply st id personnelName items faceImage)

/-- Body of `POST /components`.  `none` stands for a missing (falsy) JSON
field; the handler applies the same defaults as the source. -/
structure ComponentInput where
  name : String
  categoryId : Option Nat := none
  categoryName : Option String := none
  quantity : Option Int := none
  unit : String := ""
  minStock : Option Int := none
  location : String := ""
  supplier : String := ""
  imageUrl : String := ""
deriving Repr, DecidableEq

def lowerChars (s : String) : List Char := s.data.map Char.toLower

def isPrefixChars : List Char → List Char → Bool
  | [], _ => true
  | _ :: _, [] => false
  | a :: as, b :: bs => a == b && isPrefixChars as bs

def containsSub (needle : List Char) : List Char → Bool
  | [] => isPrefixChars needle []
  | b :: bs => isPrefixChars needle (b :: bs) || containsSub needle bs

/-- `/consumable/i.test(s)`: `s` contains the substring "consumable",
case-insensitively. -/
def containsConsumable (s : String) : Bool :=
  containsSub "consumable".data (lowerChars s)

/-- `String(categoryName).trim()`: strip whitespace from both ends. -/
def jsTrim (s : String) : String :=
  String.mk (((s.data.dropWhile Char.isWhitespace).reverse.dropWhile
    Char.isWhitespace).reverse)

/-- The JS value `categoryName && /consumable/i.test(categoryName)`.
When `categoryName` is missing the value is `undefined`; when it is the
empty string the value is `""`.  Both are falsy non-booleans: `none` here
marks that the computed value is not a boolean. -/
def jsConsumable : Option String → Option Bool
  | none => none
  | some s => if s = "" then none else some (containsConsumable s)

/-- `categoryName ? String(categoryName).trim() : ""`. -/
def finalCategoryName : Option String → String
  | none => ""
  | some s => if s = "" then "" else jsTrim s

/-- `POST /components`.  The `consumable` column is NOT NULL BOOLEAN: when
the computed JS value is `undefined` (sent as SQL NULL) or `""` (not a
valid boolean literal), the INSERT itself fails and the handler answers
500 from its catch block — no component row is created.  The caller has
no way to supply the flag directly; it is derived from `categoryName`. -/
def postComponents (st : Store) (input : ComponentInput) :
    ApiResult (Nat × Store) :=
  if input.name = "" then
    .err { httpStatus := 400, error := "Name is required" }
  else
    match jsConsumable input.categoryName with
    | none => .err { httpStatus := 500, error := "Internal server error" }
    | some consumable =>
      let cid := st.nextComponentId
      let comp : Component :=
        { name := input.name
          quantity := input.quantity.getD 0
          unit := if input.unit = "" then "pcs" else input.unit
          minStock := input.minStock.getD 0
          location := input.location
          supplier := input.supplier
          imageUrl := input.imageUrl
          categoryName := finalCategoryName input.categoryName
          consumable := consumable }
      .ok (cid,
        { st with
          components := st.components ++ [(cid, comp)],
          nextComponentId := cid + 1 })

/-- `DELETE /components/:id`: 404 if the component row does not exist,
otherwise delete the usage rows, the request-item rows and the component
row.  The `requests` table is not touched. -/
def deleteComponent (st : Store) (cid : Nat) : ApiResult Store :=
  match lookupComp st cid with
  | none => .err { httpStatus := 404, error := "Component not found" }
  | some _ =>
    .ok { st with
      usageHistory := st.usageHistory.filter (fun u => u.componentId != cid),
      requestItems := st.requestItems.filter (fun ri => ri.componentId != cid),
      components := st.components.filter (fun p => p.1 != cid) }

/-- Total quantity the approval loop debits from component `cid` (sum over
every line item of the request that references it). -/
def approveTotal (items : List JoinedItem) (cid : Nat) : Int :=
  ((items.filter (fun it => it.component_id == cid)).map (fun it => it.quantity)).sum

/-- Total quantity the return loop credits to component `cid` (sum over the
non-consumable line items that reference it). -/
def returnTotal (items : List JoinedItem) (cid : Nat) : Int :=
  ((items.filter (fun it => it.consumable == false && it.component_id == cid)).map
    (fun it => it.quantity)).sum

/-! ### Basic lemmas about lookups and updates -/

theorem lookupIn_map_if {α : Type} (l : List (Nat × α)) (cid c : Nat) (g : α → α) :
    lookupIn (l.map (fun p => if p.1 == cid then (p.1, g p.2) else p)) c =
      if c = cid then (lookupIn l c).map g else lookupIn l c := by
  induction l with
  | nil => simp [lookupIn]
  | cons hd tl ih =>
    rcases hd with ⟨k, v⟩
    by_cases hc : k = c
    · subst hc
      by_cases hcid : k = cid
      · subst hcid
        simp [lookupIn, List.find?_cons_of_pos]
      · simp [lookupIn, List.find?_cons_of_pos, hcid, Ne.symm hcid]
    · by_cases hcid : k = cid
      · subst hcid
        simpa [lookupIn, List.find?_cons_of_neg, hc] using ih
      · simpa [lookupIn, List.find?_cons_of_neg, hc, hcid] using ih

theorem lookupComp_updateComponentQty (st : Store) (cid c : Nat) (f : Int → Int) :
    lookupComp (updateComponentQty st cid f) c =
      if c = cid then
        (lookupComp st c).map (fun comp => { comp with quantity := f comp.quantity })
      else lookupComp st c := by
  simpa [lookupComp, updateComponentQty] using
    lookupIn_map_if st.components cid c (fun comp => { comp with quantity := f comp.quantity })

theorem lookupReq_updateRequest (st : Store) (id c : Nat) (f : Request → Request) :
    lookupReq (updateRequest st id f) c =
      if c = id then (lookupReq st c).map f else lookupReq st c := by
  simpa [lookupReq, updateRequest] using lookupIn_map_if st.requests id c f

/-! ### Effects of the approval debit loop -/

theorem approveTotal_nil (c : Nat) : approveTotal [] c = 0 := rfl

theorem approveTotal_cons (it : JoinedItem) (rest : List JoinedItem) (c : Nat) :
    approveTotal (it :: rest) c =
      (if it.component_id = c then it.quantity else 0) + approveTotal rest c := by
  by_cases h : it.component_id = c <;>
    simp [approveTotal, List.filter_cons, h]

theorem approveStep_requests (pn : String) (now : Nat) (s : Store) (it : JoinedItem) :
    (approveStep pn now s it).requests = s.requests := rfl

theorem approveStep_requestItems (pn : String) (now : Nat) (s : Store) (it : JoinedItem) :
    (approveStep pn now s it).requestItems = s.requestItems := rfl

theorem approveFold_requests (pn : String) (now : Nat) (items : List JoinedItem) (st : Store) :
    (items.foldl (approveStep pn now) st).requests = st.requests := by
  induction items generalizing st with
  | nil => rfl
  | cons it rest ih => simpa [List.foldl_cons, approveStep_requests] using ih _

theorem approveFold_requestItems (pn : String) (now : Nat) (items : List JoinedItem) (st : Store) :
    (items.foldl (approveStep pn now) st).requestItems = st.requestItems := by
  induction items generalizing st with
  | nil => rfl
  | cons it rest ih => simpa [List.foldl_cons, approveStep_requestItems] using ih _

theorem approveFold_usage (pn : String) (now : Nat) (items : List JoinedItem) (st : Store) :
    (items.foldl (approveStep pn now) st).usageHistory =
      st.usageHistory ++ items.map (mkRemoveRecord pn now) := by
  induction items generalizing st with
  | nil => simp
  | cons it rest ih =>
    simp [List.foldl_cons, ih, approveStep, appendUsage, updateComponentQty]

theorem approveFold_lookupComp (pn : String) (now : Nat) (items : List JoinedItem)
    (st : Store) (c : Nat) :
    lookupComp (items.foldl (approveStep pn now) st) c =
      (lookupComp st c).map
        (fun comp => { comp with quantity := comp.quantity - approveTotal items c }) := by
  induction items generalizing st with
  | nil =>
    cases h : lookupComp st c <;> simp [h, approveTotal_nil]
  | cons it rest ih =>
    rw [List.foldl_cons, ih]
    have hstep : lookupComp (approveStep pn now st it) c =
        if c = it.component_id then
          (lookupComp st c).map (fun comp => { comp with quantity := comp.quantity - it.quantity })
        else lookupComp st c := by
      simpa [approveStep, appendUsage, lookupComp] using
        lookupComp_updateComponentQty st it.component_id c (fun q => q - it.quantity)
    rw [hstep, approveTotal_cons]
    by_cases h : c = it.component_id
    · subst h
      cases hx : lookupComp st it.component_id with
      | none => simp [hx]
      | some comp => simp [hx, Option.map_map, Function.comp, sub_sub]
    · have h' : it.component_id ≠ c := fun hh => h hh.symm
      cases hx : lookupComp st c <;> simp [h, h', hx]

/-! ### Effects of the return credit loop -/

theorem returnTotal_nil (c : Nat) : returnTotal [] c = 0 := rfl

theorem returnTotal_cons (it : JoinedItem) (rest : List JoinedItem) (c : Nat) :
    returnTotal (it :: rest) c =
      (if it.consumable = false ∧ it.component_id = c then it.quantity else 0) +
        returnTotal rest c := by
  by_cases h1 : it.consumable = false
  · by_cases h2 : it.component_id = c <;>
      simp [returnTotal, List.filter_cons, h1, h2]
  · simp [returnTotal, List.filter_cons, h1]

theorem returnStep_requests (pn : String) (now : Nat) (s : Store) (it : JoinedItem) :
    (returnStep pn now s it).requests = s.requests := by
  by_cases h : it.consumable = false <;> simp [returnStep, h, appendUsage, updateComponentQty]

theorem returnStep_requestItems (pn : String) (now : Nat) (s : Store) (it : JoinedItem) :
    (returnStep pn now s it).requestItems = s.requestItems := by
  by_cases h : it.consumable = false <;> simp [returnStep, h, appendUsage, updateComponentQty]

theorem returnFold_requests (pn : String) (now : Nat) (items : List JoinedItem) (st : Store) :
    (items.foldl (returnStep pn now) st).requests = st.requests := by
  induction items generalizing st with
  | nil => rfl
  | cons it rest ih =>
    rw [List.foldl_cons]
    exact (ih (returnStep pn now st it)).trans (returnStep_requests pn now st it)

theorem returnFold_requestItems (pn : String) (now : Nat) (items : List JoinedItem) (st : Store) :
    (items.foldl (returnStep pn now) st).requestItems = st.requestItems := by
  induction items generalizing st with
  | nil => rfl
  | cons it rest ih =>
    rw [List.foldl_cons]
    exact (ih (returnStep pn now st it)).trans (returnStep_requestItems pn now st it)

theorem returnFold_usage (pn : String) (now : Nat) (items : List JoinedItem) (st : Store) :
    (items.foldl (returnStep pn now) st).usageHistory =
      st.usageHistory ++
        (items.filter (fun it => it.consumable == false)).map (mkAddRecord pn now) := by
  induction items generalizing st with
  | nil => simp
  | cons it rest ih =>
    by_cases h : it.consumable = false
    · simp [List.foldl_cons, List.filter_cons, h, ih, returnStep,
        appendUsage, updateComponentQty]
    · simp [List.foldl_cons, List.filter_cons, h, ih, returnStep]

theorem returnFold_lookupComp (pn : String) (now : Nat) (items : List JoinedItem)
    (st : Store) (c : Nat) :
    lookupComp (items.foldl (returnStep pn now) st) c =
      (lookupComp st c).map
        (fun comp => { comp with quantity := comp.quantity + returnTotal items c }) := by
  induction items generalizing st with
  | nil =>
    cases h : lookupComp st c <;> simp [h, returnTotal_nil]
  | cons it rest ih =>
    rw [List.foldl_cons, ih]
    have hstep : lookupComp (returnStep pn now st it) c =
        if it.consumable = false ∧ c = it.component_id then
          (lookupComp st c).map (fun comp => { comp with quantity := comp.quantity + it.quantity })
        else lookupComp st c := by
      by_cases h1 : it.consumable = false
      · simpa [returnStep, h1, appendUsage, lookupComp] using
          lookupComp_updateComponentQty st it.component_id c (fun q => q + it.quantity)
      · simp [returnStep, h1]
    rw [hstep, returnTotal_cons]
    by_cases h1 : it.consumable = false
    · by_cases h2 : c = it.component_id
      · subst h2
        cases hx : lookupComp st it.component_id with
        | none => simp [hx]
        | some comp =>
          simp [h1, hx, Option.map_map, Function.comp, add_assoc]
      · have h2' : it.component_id ≠ c := fun hh => h2 hh.symm
        cases hx : lookupComp st c <;> simp [h1, h2, h2', hx]
    · cases hx : lookupComp st c <;> simp [h1, hx]

/-! ### Structure of joined items -/

theorem mem_itemsOf (st : Store) (id : Nat) (it : JoinedItem) (h : it ∈ itemsOf st id) :
    ∃ ri ∈ st.requestItems, ri.requestId = id ∧
      ∃ c, lookupComp st ri.componentId = some c ∧
        it = { component_id := ri.componentId, quantity := ri.quantity,
               description := ri.description, component_name := c.name, unit := c.unit,
               consumable := c.consumable, component_quantity := c.quantity } := by
  simp only [itemsOf, List.mem_filterMap] at h
  obtain ⟨ri, hri, hf⟩ := h
  by_cases hid : ri.requestId = id
  · refine ⟨ri, hri, hid, ?_⟩
    simp only [hid, beq_self_eq_true, if_true, Option.map_eq_some'] at hf
    obtain ⟨c, hc, hit⟩ := hf
    exact ⟨c, hc, hit.symm⟩
  · simp [hid] at hf

theorem itemsOf_fields (st : Store) (id : Nat) (it : JoinedItem) (c : Component)
    (h : it ∈ itemsOf st id) (hc : lookupComp st it.component_id = some c) :
    it.consumable = c.consumable ∧ it.component_quantity = c.quantity ∧
      it.component_name = c.name := by
  obtain ⟨ri, _, _, c', hc', hit⟩ := mem_itemsOf st id it h
  subst hit
  simp only at hc
  rw [hc'] at hc
  cases hc
  exact ⟨rfl, rfl, rfl⟩

/-- The data of a joined item that survives a quantity-only rewrite of the
components table: which component, how many were asked, and whether that
component is consumable. -/
def itemCore (it : JoinedItem) : Nat × Int × Bool :=
  (it.component_id, it.quantity, it.consumable)

theorem filterMap_ext {α β : Type} (l : List α) (f g : α → Option β)
    (h : ∀ a ∈ l, f a = g a) : l.filterMap f = l.filterMap g := by
  induction l with
  | nil => rfl
  | cons a as ih =>
    simp [List.filterMap_cons, h a (by simp),
      ih (fun x hx => h x (List.mem_cons_of_mem _ hx))]

theorem itemsOf_core_congr (st1 st2 : Store) (id : Nat)
    (hri : st1.requestItems = st2.requestItems)
    (hc : ∀ cid, (lookupComp st1 cid).map Component.consumable =
                 (lookupComp st2 cid).map Component.consumable) :
    (itemsOf st1 id).map itemCore = (itemsOf st2 id).map itemCore := by
  unfold itemsOf
  rw [hri, List.map_filterMap, List.map_filterMap]
  apply filterMap_ext
  intro ri _
  by_cases hid : ri.requestId = id
  · have hcons := hc ri.componentId
    cases h1 : lookupComp st1 ri.componentId with
    | none =>
      cases h2 : lookupComp st2 ri.componentId with
      | none => simp [hid, h1, h2]
      | some c2 => rw [h1, h2] at hcons; simp at hcons
    | some c1 =>
      cases h2 : lookupComp st2 ri.componentId with
      | none => rw [h1, h2] at hcons; simp at hcons
      | some c2 =>
        rw [h1, h2] at hcons
        simp only [Option.map_some', Option.some.injEq] at hcons
        simp [hid, h1, h2, itemCore, hcons]
  · simp [hid]

theorem approveTotal_congr (l1 l2 : List JoinedItem)
    (h : l1.map itemCore = l2.map itemCore) (cid : Nat) :
    approveTotal l1 cid = approveTotal l2 cid := by
  induction l1 generalizing l2 with
  | nil => cases l2 with
    | nil => rfl
    | cons b bs => simp at h
  | cons a as ih =>
    cases l2 with
    | nil => simp at h
    | cons b bs =>
      simp only [List.map_cons, List.cons.injEq, itemCore, Prod.mk.injEq] at h
      obtain ⟨⟨h1, h2, _⟩, h4⟩ := h
      rw [approveTotal_cons, approveTotal_cons, h1, h2, ih bs h4]

theorem returnTotal_congr (l1 l2 : List JoinedItem)
    (h : l1.map itemCore = l2.map itemCore) (cid : Nat) :
    returnTotal l1 cid = returnTotal l2 cid := by
  induction l1 generalizing l2 with
  | nil => cases l2 with
    | nil => rfl
    | cons b bs => simp at h
  | cons a as ih =>
    cases l2 with
    | nil => simp at h
    | cons b bs =>
      simp only [List.map_cons, List.cons.injEq, itemCore, Prod.mk.injEq] at h
      obtain ⟨⟨h1, h2, h3⟩, h4⟩ := h
      rw [returnTotal_cons, returnTotal_cons, h1, h2, h3, ih bs h4]

theorem returnTotal_eq_approveTotal (st : Store) (id cid : Nat) (c : Component)
    (hc : lookupComp st cid = some c) (hcons : c.consumable = false) :
    returnTotal (itemsOf st id) cid = approveTotal (itemsOf st id) cid := by
  unfold returnTotal approveTotal
  have hfil : (itemsOf st id).filter
        (fun it => it.consumable == false && it.component_id == cid) =
      (itemsOf st id).filter (fun it => it.component_id == cid) := by
    apply List.filter_congr
    intro it hit
    by_cases h : it.component_id = cid
    · have hcc : lookupComp st it.component_id = some c := by rw [h]; exact hc
      have hfields := itemsOf_fields st id it c hit hcc
      simp [h, hfields.1, hcons]
    · simp [h]
  rw [hfil]

/-! ### The shared availability loop -/

theorem checkItemsStock_eq_none_iff (st : Store) (items : List ItemInput) :
    checkItemsStock st items = none ↔
      ∀ it ∈ items, ∃ c, lookupComp st it.componentId = some c ∧
        0 < c.quantity ∧ it.quantity ≤ c.quantity := by
  induction items with
  | nil => simp [checkItemsStock]
  | cons it rest ih =>
    cases hc : lookupComp st it.componentId with
    | none =>
      simp only [checkItemsStock, hc]
      constructor
      · intro h; cases h
      · intro h
        obtain ⟨c, hc', _⟩ := h it (by simp)
        rw [hc] at hc'; cases hc'
    | some c =>
      simp only [checkItemsStock, hc]
      by_cases hq : c.quantity ≤ 0 ∨ c.quantity < it.quantity
      · rw [if_pos hq]
        constructor
        · intro h; cases h
        · intro h
          obtain ⟨c', hc', hpos, hle⟩ := h it (by simp)
          rw [hc] at hc'
          cases hc'
          omega
      · rw [if_neg hq, ih]
        constructor
        · intro h it' hit'
          rcases List.mem_cons.mp hit' with rfl | hmem
          · exact ⟨c, hc, by omega, by omega⟩
          · exact h it' hmem
        · intro h it' hit'
          exact h it' (List.mem_cons_of_mem _ hit')

theorem checkItemsStock_insufficient (st : Store) (items : List ItemInput)
    (hres : ∀ it ∈ items, (lookupComp st it.componentId).isSome = true)
    (hbad : ∃ it ∈ items, ∃ c, lookupComp st it.componentId = some c ∧
      (c.quantity ≤ 0 ∨ c.quantity < it.quantity)) :
    ∃ it ∈ items, ∃ c, lookupComp st it.componentId = some c ∧
      (c.quantity ≤ 0 ∨ c.quantity < it.quantity) ∧
      checkItemsStock st items = some
        { httpStatus := 400
          error := "Requested quantity for " ++ c.name ++ " exceeds available stock"
          available := some c.quantity } := by
  induction items with
  | nil => simp at hbad
  | cons it rest ih =>
    have hit := hres it (by simp)
    obtain ⟨c, hc⟩ := Option.isSome_iff_exists.mp hit
    by_cases hq : c.quantity ≤ 0 ∨ c.quantity < it.quantity
    · exact ⟨it, by simp, c, hc, hq, by simp [checkItemsStock, hc, hq]⟩
    · have hbad' : ∃ it' ∈ rest, ∃ c', lookupComp st it'.componentId = some c' ∧
          (c'.quantity ≤ 0 ∨ c'.quantity < it'.quantity) := by
        obtain ⟨it', hmem, c', hc', hq'⟩ := hbad
        rcases List.mem_cons.mp hmem with rfl | hmem'
        · rw [hc] at hc'
          cases hc'
          exact absurd hq' hq
        · exact ⟨it', hmem', c', hc', hq'⟩
      obtain ⟨it', hmem', c', hc', hq', heq⟩ :=
        ih (fun x hx => hres x (List.mem_cons_of_mem _ hx)) hbad'
      exact ⟨it', List.mem_cons_of_mem _ hmem', c', hc', hq',
        by simp [checkItemsStock, hc, hq, heq]⟩

/-! ### Unfolding `PATCH /requests/:id/status` -/

theorem patchRequestStatus_branch (st : Store) (id now : Nat) (status : String)
    (row : Request) (hr : lookupReq st id = some row)
    (hne : (itemsOf st id).isEmpty = false) :
    patchRequestStatus st id status now =
      if !(["PENDING", "APPROVED", "RETURNED"].contains status) then
        .err { httpStatus := 400, error := "Invalid status" }
      else if status = "APPROVED" then approveBranch st id row (itemsOf st id) now
      else if status = "RETURNED" then returnedBranch st id row (itemsOf st id) now
      else pendingBranch st id := by
  unfold patchRequestStatus
  cases hg : (["PENDING", "APPROVED", "RETURNED"].contains status) with
  | false => simp [hg]
  | true => simp [hg, hr, hne]

theorem patchStatus_ok_inversion (st st' : Store) (id now : Nat) (status : String)
    (h : patchRequestStatus st id status now = .ok st') :
    ∃ row, lookupReq st id = some row ∧ (itemsOf st id).isEmpty = false := by
  unfold patchRequestStatus at h
  by_cases hg : (["PENDING", "APPROVED", "RETURNED"].contains status) = true
  · rw [hg] at h
    simp only [Bool.not_true, Bool.false_eq_true, if_false] at h
    cases hr : lookupReq st id with
    | none => rw [hr] at h; cases h
    | some row =>
      rw [hr] at h
      simp only at h
      cases hne : (itemsOf st id).isEmpty with
      | true => rw [hne] at h; simp at h
      | false => exact ⟨row, rfl, rfl⟩
  · have hg' : (["PENDING", "APPROVED", "RETURNED"].contains status) = false := by
      simpa using hg
    rw [hg'] at h
    simp at h

theorem patchRequestStatus_approved_eq (st : Store) (id now : Nat) (row : Request)
    (hr : lookupReq st id = some row) (hne : (itemsOf st id).isEmpty = false) :
    patchRequestStatus st id "APPROVED" now =
      approveBranch st id row (itemsOf st id) now := by
  rw [patchRequestStatus_branch st id now "APPROVED" row hr hne]
  rfl

theorem patchRequestStatus_returned_eq (st : Store) (id now : Nat) (row : Request)
    (hr : lookupReq st id = some row) (hne : (itemsOf st id).isEmpty = false) :
    patchRequestStatus st id "RETURNED" now =
      returnedBranch st id row (itemsOf st id) now := by
  rw [patchRequestStatus_branch st id now "RETURNED" row hr hne]
  rfl

theorem patchRequestStatus_pending_eq (st : Store) (id now : Nat) (row : Request)
    (hr : lookupReq st id = some row) (hne : (itemsOf st id).isEmpty = false) :
    patchRequestStatus st id "PENDING" now = pendingBranch st id := by
  rw [patchRequestStatus_branch st id now "PENDING" row hr hne]
  rfl

theorem approve_ok_inversion (st st' : Store) (id now : Nat)
    (h : patchRequestStatus st id "APPROVED" now = .ok st') :
    ∃ row, lookupReq st id = some row ∧ (itemsOf st id).isEmpty = false ∧
      (itemsOf st id).find? (fun it => decide (it.component_quantity < it.quantity)) = none ∧
      st' = (itemsOf st id).foldl (approveStep row.personnelName now)
        (updateRequest st id fun r =>
          { r with status := "APPROVED", approvedAt := some now }) := by
  obtain ⟨row, hr, hne⟩ := patchStatus_ok_inversion st st' id now "APPROVED" h
  rw [patchRequestStatus_approved_eq st id now row hr hne] at h
  unfold approveBranch at h
  cases hf : (itemsOf st id).find? (fun it => decide (it.component_quantity < it.quantity)) with
  | some it => rw [hf] at h; cases h
  | none =>
    rw [hf] at h
    simp only [ApiResult.ok.injEq] at h
    exact ⟨row, hr, hne, rfl, h.symm⟩

theorem return_ok_inversion (st st' : Store) (id now : Nat)
    (h : patchRequestStatus st id "RETURNED" now = .ok st') :
    ∃ row, lookupReq st id = some row ∧ (itemsOf st id).isEmpty = false ∧
      st' = (itemsOf st id).foldl (returnStep row.personnelName now)
        (updateRequest st id fun r =>
          { r with status := "RETURNED", returnedAt := some now }) := by
  obtain ⟨row, hr, hne⟩ := patchStatus_ok_inversion st st' id now "RETURNED" h
  rw [patchRequestStatus_returned_eq st id now row hr hne] at h
  unfold returnedBranch at h
  simp only [ApiResult.ok.injEq] at h
  exact ⟨row, hr, hne, h.symm⟩

/-! ### Derived effect lemmas -/

theorem lookupReq_approveFold (pn : String) (now : Nat) (items : List JoinedItem)
    (st : Store) (id : Nat) :
    lookupReq (items.foldl (approveStep pn now) st) id = lookupReq st id := by
  unfold lookupReq
  rw [approveFold_requests]

theorem lookupReq_returnFold (pn : String) (now : Nat) (items : List JoinedItem)
    (st : Store) (id : Nat) :
    lookupReq (items.foldl (returnStep pn now) st) id = lookupReq st id := by
  unfold lookupReq
  rw [returnFold_requests]

theorem lookupComp_updateRequest (st : Store) (id c : Nat) (f : Request → Request) :
    lookupComp (updateRequest st id f) c = lookupComp st c := rfl

theorem approveTotal_eq_zero_of_not_mem (items : List JoinedItem) (cid : Nat)
    (h : cid ∉ items.map (fun x => x.component_id)) : approveTotal items cid = 0 := by
  induction items with
  | nil => rfl
  | cons a as ih =>
    simp only [List.map_cons, List.mem_cons] at h
    push_neg at h
    rw [approveTotal_cons, if_neg (fun hh => h.1 hh.symm), zero_add, ih h.2]

theorem approveTotal_of_nodup (items : List JoinedItem) (it : JoinedItem)
    (hmem : it ∈ items) (hnd : (items.map (fun x => x.component_id)).Nodup) :
    approveTotal items it.component_id = it.quantity := by
  induction items with
  | nil => cases hmem
  | cons a as ih =>
    rw [List.map_cons, List.nodup_cons] at hnd
    rcases List.mem_cons.mp hmem with rfl | hmem'
    · rw [approveTotal_cons, if_pos rfl,
        approveTotal_eq_zero_of_not_mem as it.component_id hnd.1, add_zero]
    · have ha : a.component_id ≠ it.component_id := by
        intro hq
        exact hnd.1 (hq ▸ List.mem_map_of_mem (fun x => x.component_id) hmem')
      rw [approveTotal_cons, if_neg ha, zero_add, ih hmem' hnd.2]

/-- Effects of a successful PENDING-check-free `APPROVED` transition, stated
against the pre-state. -/
theorem approve_ok_effects (st st' : Store) (id now : Nat) (row : Request)
    (hr : lookupReq st id = some row)
    (hok : patchRequestStatus st id "APPROVED" now = .ok st') :
    lookupReq st' id = some { row with status := "APPROVED", approvedAt := some now } ∧
    st'.usageHistory = st.usageHistory ++
      (itemsOf st id).map (mkRemoveRecord row.personnelName now) ∧
    (∀ cid, lookupComp st' cid = (lookupComp st cid).map
      (fun c => { c with quantity := c.quantity - approveTotal (itemsOf st id) cid })) ∧
    st'.requestItems = st.requestItems ∧
    (∀ it ∈ itemsOf st id, ¬ (it.component_quantity < it.quantity)) := by
  obtain ⟨row', hr', hne, hf, hst⟩ := approve_ok_inversion st st' id now hok
  rw [hr] at hr'
  cases hr'
  subst hst
  refine ⟨?_, ?_, ?_, ?_, ?_⟩
  · rw [lookupReq_approveFold, lookupReq_updateRequest, if_pos rfl, hr]
    rfl
  · rw [approveFold_usage]
    rfl
  · intro cid
    rw [approveFold_lookupComp, lookupComp_updateRequest]
  · rw [approveFold_requestItems]
    rfl
  · intro it hit
    rw [List.find?_eq_none] at hf
    simpa using hf it hit

/-- Effects of a successful `RETURNED` transition, stated against the
pre-state. -/
theorem return_ok_effects (st st' : Store) (id now : Nat) (row : Request)
    (hr : lookupReq st id = some row)
    (hok : patchRequestStatus st id "RETURNED" now = .ok st') :
    lookupReq st' id = some { row with status := "RETURNED", returnedAt := some now } ∧
    st'.usageHistory = st.usageHistory ++
      ((itemsOf st id).filter (fun it => it.consumable == false)).map
        (mkAddRecord row.personnelName now) ∧
    (∀ cid, lookupComp st' cid = (lookupComp st cid).map
      (fun c => { c with quantity := c.quantity + returnTotal (itemsOf st id) cid })) ∧
    st'.requestItems = st.requestItems := by
  obtain ⟨row', hr', hne, hst⟩ := return_ok_inversion st st' id now hok
  rw [hr] at hr'
  cases hr'
  subst hst
  refine ⟨?_, ?_, ?_, ?_⟩
  · rw [lookupReq_returnFold, lookupReq_updateRequest, if_pos rfl, hr]
    rfl
  · rw [returnFold_usage]
    rfl
  · intro cid
    rw [returnFold_lookupComp, lookupComp_updateRequest]
  · rw [returnFold_requestItems]
    rfl

theorem returnTotal_zero_of_consumable (st : Store) (id cid : Nat) (c : Component)
    (hc : lookupComp st cid = some c) (hcons : c.consumable = true) :
    returnTotal (itemsOf st id) cid = 0 := by
  unfold returnTotal
  have hnil : (itemsOf st id).filter
      (fun it => it.consumable == false && it.component_id == cid) = [] := by
    rw [List.filter_eq_nil_iff]
    intro it hit
    by_cases h : it.component_id = cid
    · have hcc : lookupComp st it.component_id = some c := by rw [h]; exact hc
      have hfield := (itemsOf_fields st id it c hit hcc).1
      simp [hfield, hcons, h]
    · simp [h]
  rw [hnil]
  rfl

/-- Approving and then returning the same request restores the quantity of
every non-consumable component. -/
theorem approve_then_return_restores (st0 st1 st2 : Store) (id now0 now1 : Nat)
    (row0 row1 : Request)
    (hr0 : lookupReq st0 id = some row0)
    (h1 : patchRequestStatus st0 id "APPROVED" now0 = .ok st1)
    (hr1 : lookupReq st1 id = some row1)
    (h2 : patchRequestStatus st1 id "RETURNED" now1 = .ok st2)
    (cid : Nat) (c : Component)
    (hc : lookupComp st0 cid = some c) (hcons : c.consumable = false) :
    quantityOf st2 cid = quantityOf st0 cid := by
  obtain ⟨-, -, hcomp1, hitems1, -⟩ := approve_ok_effects st0 st1 id now0 row0 hr0 h1
  obtain ⟨-, -, hcomp2, -⟩ := return_ok_effects st1 st2 id now1 row1 hr1 h2
  have hcore : (itemsOf st1 id).map itemCore = (itemsOf st0 id).map itemCore := by
    apply itemsOf_core_congr
    · exact hitems1
    · intro cid'
      rw [hcomp1 cid']
      cases lookupComp st0 cid' <;> simp
  have hR : returnTotal (itemsOf st1 id) cid = approveTotal (itemsOf st0 id) cid := by
    rw [returnTotal_congr _ _ hcore cid]
    exact returnTotal_eq_approveTotal st0 id cid c hc hcons
  unfold quantityOf
  rw [hcomp2 cid, hcomp1 cid, hc]
  simp [hR]

/-! ### Concrete demonstration states -/

/-- A PENDING request by Ada for 2 Cameras (non-consumable, 10 in stock)
and 3 Resistors (consumable, 5 in stock). -/
def demoStore : Store :=
  { components := [(1, { name := "Camera", quantity := 10, consumable := false }),
                   (2, { name := "Resistor", quantity := 5, consumable := true })]
    requests := [(1, { personnelName := "Ada", status := "PENDING", requestedAt := 0 })]
    requestItems := [{ requestId := 1, componentId := 1, quantity := 2 },
                     { requestId := 1, componentId := 2, quantity := 3 }]
    usageHistory := []
    nextComponentId := 3
    nextRequestId := 2 }

def demoReq : Request := { personnelName := "Ada", status := "PENDING", requestedAt := 0 }

/-- Same shape as `demoStore` but the request is already RETURNED. -/
def demoRet : Store :=
  { components := [(1, { name := "Camera", quantity := 10, consumable := false })]
    requests := [(1, { personnelName := "Ada", status := "RETURNED", requestedAt := 0 })]
    requestItems := [{ requestId := 1, componentId := 1, quantity := 2 }]
    usageHistory := []
    nextComponentId := 2
    nextRequestId := 2 }

def demoRetRow : Request := { personnelName := "Ada", status := "RETURNED", requestedAt := 0 }

/-- A request that is already APPROVED (stock already debited once). -/
def demoAppr : Store :=
  { components := [(1, { name := "Camera", quantity := 8, consumable := false })]
    requests := [(1, { personnelName := "Ada", status := "APPROVED", requestedAt := 0 })]
    requestItems := [{ requestId := 1, componentId := 1, quantity := 2 }]
    usageHistory := []
    nextComponentId := 2
    nextRequestId := 2 }

/-- Component 2 has 5 in stock; one request holds two line items that both
ask for 3 of component 2. -/
def demoDup : Store :=
  { components := [(2, { name := "Resistor", quantity := 5, consumable := true })]
    requests := [(1, { personnelName := "Ada", status := "PENDING", requestedAt := 0 })]
    requestItems := [{ requestId := 1, componentId := 2, quantity := 3 },
                     { requestId := 1, componentId := 2, quantity := 3 }]
    usageHistory := []
    nextComponentId := 3
    nextRequestId := 2 }

/-- Component 3 "Widget" has only 1 in stock; the request asks for 5. -/
def demoLow : Store :=
  { components := [(3, { name := "Widget", quantity := 1, consumable := true })]
    requests := [(1, { personnelName := "Bob", status := "PENDING", requestedAt := 0 })]
    requestItems := [{ requestId := 1, componentId := 3, quantity := 5 }]
    usageHistory := []
    nextComponentId := 4
    nextRequestId := 2 }

def demoLowRow : Request := { personnelName := "Bob", status := "PENDING", requestedAt := 0 }

/-- `demoStore` after a successful approval at time 5. -/
def demoApproved : Store := (patchRequestStatus demoStore 1 "APPROVED" 5).okD demoStore

/-- `demoApproved` after a successful return at time 9. -/
def demoReturned : Store := (patchRequestStatus demoApproved 1 "RETURNED" 9).okD demoApproved

/-! ### C1 — status transitions -/

/-- C1, counterexample.  The claim says `setStatus` only ever moves a
request forward along PENDING→APPROVED→RETURNED (never backward, never
skipping APPROVED, never re-applying the current status, with forcing back
to PENDING as the only exception).  The handler never inspects the current
status, so all three forbidden moves succeed: a PENDING request jumps
straight to RETURNED, a RETURNED request moves backward to APPROVED, and an
APPROVED request is re-approved — debiting its component a second time
(quantity 8 → 6). -/
theorem status_guard_missing_cex :
    (requestStatus demoStore 1 = some "PENDING" ∧
      (patchRequestStatus demoStore 1 "RETURNED" 5).map (fun s => requestStatus s 1) =
        .ok (some "RETURNED")) ∧
    (requestStatus demoRet 1 = some "RETURNED" ∧
      (patchRequestStatus demoRet 1 "APPROVED" 5).map (fun s => requestStatus s 1) =
        .ok (some "APPROVED")) ∧
    (requestStatus demoAppr 1 = some "APPROVED" ∧ quantityOf demoAppr 1 = some 8 ∧
      (patchRequestStatus demoAppr 1 "APPROVED" 5).map
          (fun s => (requestStatus s 1, quantityOf s 1)) =
        .ok (some "APPROVED", some 6)) := by
  decide

/-- C1, amended.  `setStatus` enforces no ordering between statuses: for any
valid target, whenever the request exists, its joined item list is
non-empty, and (for APPROVED only) every item passes the stock check, the
transition succeeds and the stored status becomes the target — regardless
of the current status.  Backward moves, skipping APPROVED, and re-applying
the current status are all accepted. -/
theorem setStatus_sets_any_target (st : Store) (id now : Nat) (target : String)
    (row : Request)
    (hvalid : target = "PENDING" ∨ target = "APPROVED" ∨ target = "RETURNED")
    (hr : lookupReq st id = some row)
    (hne : (itemsOf st id).isEmpty = false)
    (hstock : target = "APPROVED" →
      ∀ it ∈ itemsOf st id, it.quantity ≤ it.component_quantity) :
    ∃ st', patchRequestStatus st id target now = .ok st' ∧
      requestStatus st' id = some target := by
  rcases hvalid with h | h | h <;> subst h
  · refine ⟨updateRequest st id (fun r => { r with status := "PENDING" }),
      (patchRequestStatus_pending_eq st id now row hr hne).trans rfl, ?_⟩
    unfold requestStatus
    rw [lookupReq_updateRequest, if_pos rfl, hr]
    rfl
  · have hf : (itemsOf st id).find?
        (fun it => decide (it.component_quantity < it.quantity)) = none := by
      rw [List.find?_eq_none]
      intro it hit
      simpa using not_lt.mpr (hstock rfl it hit)
    refine ⟨(itemsOf st id).foldl (approveStep row.personnelName now)
        (updateRequest st id fun r => { r with status := "APPROVED", approvedAt := some now }),
      ?_, ?_⟩
    · rw [patchRequestStatus_approved_eq st id now row hr hne]
      unfold approveBranch
      rw [hf]
    · unfold requestStatus
      rw [lookupReq_approveFold, lookupReq_updateRequest, if_pos rfl, hr]
      rfl
  · refine ⟨(itemsOf st id).foldl (returnStep row.personnelName now)
        (updateRequest st id fun r => { r with status := "RETURNED", returnedAt := some now }),
      (patchRequestStatus_returned_eq st id now row hr hne).trans rfl, ?_⟩
    unfold requestStatus
    rw [lookupReq_returnFold, lookupReq_updateRequest, if_pos rfl, hr]
    rfl

/-- C1, witness for the amended theorem: the backward RETURNED→APPROVED
move on `demoRet` succeeds. -/
theorem setStatus_sets_any_target_witness :
    ∃ st', patchRequestStatus demoRet 1 "APPROVED" 5 = .ok st' ∧
      requestStatus st' 1 = some "APPROVED" :=
  setStatus_sets_any_target demoRet 1 5 "APPROVED" demoRetRow
    (Or.inr (Or.inl rfl)) (by decide) (by decide) (fun _ => by decide)

/-! ### C2 — approval never drives stock negative -/

/-- C2, counterexample.  The claim says that when the availability check of
an APPROVED transition passes, the debits of that same transition can never
drive a component below zero, even with several line items for the same
component.  In `demoDup` component 2 holds 5; both line items ask for 3;
both pass the check against the same pre-read snapshot (5 ≥ 3), and the two
debits leave the quantity at −1. -/
theorem approve_duplicate_items_negative_cex :
    quantityOf demoDup 2 = some 5 ∧
    (patchRequestStatus demoDup 1 "APPROVED" 7).map (fun s => quantityOf s 2) =
      .ok (some (-1)) := by
  decide

/-- C2, amended.  The guarantee holds only when each component appears in at
most one line item of the request: then a successful APPROVED transition
leaves every requested component's quantity non-negative.  (With duplicate
line items for one component the snapshot check can pass while the summed
debits go below zero, as the counterexample shows.) -/
theorem approve_nonneg_for_distinct_items (st st' : Store) (id now : Nat)
    (hnd : ((itemsOf st id).map (fun it => it.component_id)).Nodup)
    (hok : patchRequestStatus st id "APPROVED" now = .ok st') :
    ∀ it ∈ itemsOf st id, ∃ q : Int,
      quantityOf st' it.component_id = some q ∧ 0 ≤ q := by
  obtain ⟨row, hr, -, -, -⟩ := approve_ok_inversion st st' id now hok
  obtain ⟨-, -, hcomp, -, hchk⟩ := approve_ok_effects st st' id now row hr hok
  intro it hit
  obtain ⟨ri, hri, hrid, c, hc, hitdef⟩ := mem_itemsOf st id it hit
  have hcc : lookupComp st it.component_id = some c := by
    subst hitdef
    exact hc
  have hfields := itemsOf_fields st id it c hit hcc
  have htot : approveTotal (itemsOf st id) it.component_id = it.quantity :=
    approveTotal_of_nodup (itemsOf st id) it hit hnd
  refine ⟨c.quantity - it.quantity, ?_, ?_⟩
  · unfold quantityOf
    rw [hcomp it.component_id, hcc, htot]
    rfl
  · have hle := hchk it hit
    rw [hfields.2.1] at hle
    omega

/-- C2, witness: approving `demoStore` (each component appears once) leaves
component 1 at a non-negative quantity. -/
theorem approve_nonneg_for_distinct_items_witness :
    ∃ q : Int, quantityOf demoApproved 1 = some q ∧ 0 ≤ q :=
  approve_nonneg_for_distinct_items demoStore demoApproved 1 5 (by decide) rfl
    { component_id := 1, quantity := 2, description := "", component_name := "Camera",
      unit := "pcs", consumable := false, component_quantity := 10 } (by decide)

/-! ### C3 — failed approval aborts the whole transition -/

/-- C3.  If any single line item fails the availability check
(`component_quantity < quantity`), the APPROVED transition returns an error
and — the error branch modelling the transaction ROLLBACK — the committed
state is exactly the pre-state: no component quantity, no usage record, and
no request field changes. -/
theorem approve_insufficient_all_or_nothing (st : Store) (id now : Nat) (row : Request)
    (hr : lookupReq st id = some row) (hne : (itemsOf st id).isEmpty = false)
    (hbad : ∃ it ∈ itemsOf st id, it.component_quantity < it.quantity) :
    (∃ e, patchRequestStatus st id "APPROVED" now = .err e) ∧
    (patchRequestStatus st id "APPROVED" now).okD st = st := by
  rw [patchRequestStatus_approved_eq st id now row hr hne]
  unfold approveBranch
  cases hf : (itemsOf st id).find?
      (fun it => decide (it.component_quantity < it.quantity)) with
  | none =>
    exfalso
    rw [List.find?_eq_none] at hf
    obtain ⟨it, hit, hlt⟩ := hbad
    have hnot := hf it hit
    simp only [decide_eq_true_eq] at hnot
    exact hnot hlt
  | some it => exact ⟨⟨_, rfl⟩, rfl⟩

/-- C3, witness: approving `demoLow` (1 Widget in stock, 5 requested)
fails. -/
theorem approve_insufficient_all_or_nothing_witness :
    ∃ e, patchRequestStatus demoLow 1 "APPROVED" 3 = .err e :=
  (approve_insufficient_all_or_nothing demoLow 1 3 demoLowRow (by decide) (by decide)
    ⟨{ component_id := 3, quantity := 5, description := "", component_name := "Widget",
       unit := "pcs", consumable := true, component_quantity := 1 },
      by decide, by decide⟩).1

/-! ### C4 — effects of a successful approval -/

/-- C4.  A successful PENDING→APPROVED transition (the handler in fact
allows it from any current status) sets `status = 'APPROVED'` and
`approved_at = now` on the request, appends exactly one usage record per
line item — `mkRemoveRecord`: `type = 'remove'`,
`quantity = −abs(requested)`, `project = "Request by <personnelName>"` —
and debits every component by the total quantity its line items requested;
for a request whose line items reference pairwise-distinct components this
is exactly that item's requested quantity. -/
theorem approve_success_effects (st st' : Store) (id now : Nat) (row : Request)
    (hr : lookupReq st id = some row)
    (hok : patchRequestStatus st id "APPROVED" now = .ok st') :
    lookupReq st' id = some { row with status := "APPROVED", approvedAt := some now } ∧
    st'.usageHistory = st.usageHistory ++
      (itemsOf st id).map (mkRemoveRecord row.personnelName now) ∧
    (∀ cid, quantityOf st' cid =
      (quantityOf st cid).map (fun q => q - approveTotal (itemsOf st id) cid)) ∧
    (∀ it ∈ itemsOf st id,
      ((itemsOf st id).map (fun x => x.component_id)).Nodup →
        quantityOf st' it.component_id =
          (quantityOf st it.component_id).map (fun q => q - it.quantity)) := by
  obtain ⟨h1, h2, hcomp, h4, h5⟩ := approve_ok_effects st st' id now row hr hok
  refine ⟨h1, h2, ?_, ?_⟩
  · intro cid
    unfold quantityOf
    rw [hcomp cid]
    cases lookupComp st cid <;> rfl
  · intro it hit hnd
    have htot := approveTotal_of_nodup (itemsOf st id) it hit hnd
    unfold quantityOf
    rw [hcomp it.component_id, htot]
    cases lookupComp st it.component_id <;> rfl

/-- C4, witness: the approval of `demoStore` at time 5 appends exactly the
two remove records. -/
theorem approve_success_effects_witness :
    demoApproved.usageHistory = demoStore.usageHistory ++
      (itemsOf demoStore 1).map (mkRemoveRecord "Ada" 5) :=
  (approve_success_effects demoStore demoApproved 1 5 demoReq rfl rfl).2.1

/-! ### C5 — effects of the RETURNED transition -/

def demoApprovedRow : Request :=
  { personnelName := "Ada", status := "APPROVED", requestedAt := 0, approvedAt := some 5 }

/-- C5.  A successful transition to RETURNED sets `returned_at = now`
unconditionally; per line item whose component is non-consumable it credits
the component by the item quantity and appends one usage record —
`mkAddRecord`: `type = 'add'`, `quantity = +abs(requested)`,
`project = "Return by <personnelName>"` — while consumable items change
neither quantities nor the usage log (`returnTotal` is 0 for them); and
approving then returning restores every non-consumable component's quantity
to its pre-approval value exactly. -/
theorem return_transition_effects (st st' : Store) (id now : Nat) (row : Request)
    (hr : lookupReq st id = some row)
    (hok : patchRequestStatus st id "RETURNED" now = .ok st') :
    lookupReq st' id = some { row with status := "RETURNED", returnedAt := some now } ∧
    st'.usageHistory = st.usageHistory ++
      ((itemsOf st id).filter (fun it => it.consumable == false)).map
        (mkAddRecord row.personnelName now) ∧
    (∀ cid, quantityOf st' cid =
      (quantityOf st cid).map (fun q => q + returnTotal (itemsOf st id) cid)) ∧
    (∀ cid c, lookupComp st cid = some c → c.consumable = true →
      quantityOf st' cid = quantityOf st cid) ∧
    (∀ st0 now0 row0, lookupReq st0 id = some row0 →
      patchRequestStatus st0 id "APPROVED" now0 = .ok st →
      ∀ cid c, lookupComp st0 cid = some c → c.consumable = false →
        quantityOf st' cid = quantityOf st0 cid) := by
  obtain ⟨h1, h2, hcomp, h4⟩ := return_ok_effects st st' id now row hr hok
  refine ⟨h1, h2, ?_, ?_, ?_⟩
  · intro cid
    unfold quantityOf
    rw [hcomp cid]
    cases lookupComp st cid <;> rfl
  · intro cid c hc hcons
    unfold quantityOf
    rw [hcomp cid, hc, returnTotal_zero_of_consumable st id cid c hc hcons]
    simp
  · intro st0 now0 row0 hr0 h0 cid c hc hcons
    exact approve_then_return_restores st0 st st' id now0 now row0 row
      hr0 h0 hr hok cid c hc hcons

/-- C5, witness: approving `demoStore` at time 5 and returning at time 9
restores the non-consumable component 1 to its pre-approval quantity. -/
theorem return_transition_effects_witness :
    quantityOf demoReturned 1 = quantityOf demoStore 1 :=
  (return_transition_effects demoApproved demoReturned 1 9 demoApprovedRow
      (by decide) (by decide)).2.2.2.2
    demoStore 5 demoReq (by decide) (by decide) 1
    { name := "Camera", quantity := 10, consumable := false } (by decide) rfl

/-! ### C6 — request creation -/

/-- Committed state of `POST /requests`: the error branch models the
handler's early return (all checks run before the INSERT transaction), so
nothing is persisted on a rejection. -/
def createdState (st : Store) (r : ApiResult (Nat × Store)) : Store :=
  match r with
  | .ok p => p.2
  | .err _ => st

theorem any_badItem_false_of_valid (items : List ItemInput)
    (hval : ∀ it ∈ items, it.componentId ≠ 0 ∧ 0 < it.quantity) :
    items.any badItem = false := by
  rw [List.any_eq_false]
  intro it hit
  have h := hval it hit
  simp [badItem]
  omega

theorem postRequests_check_some (st : Store) (pn : String) (items : List ItemInput)
    (fi : Option String) (now : Nat) (e : ErrorPayload)
    (hpn : pn ≠ "") (hne : items ≠ [])
    (hval : ∀ it ∈ items, it.componentId ≠ 0 ∧ 0 < it.quantity)
    (hcs : checkItemsStock st items = some e) :
    postRequests st pn items fi now = .err e := by
  unfold postRequests
  have h1 : ¬(pn = "" ∨ items.isEmpty = true) := by
    rintro (h | h)
    · exact hpn h
    · exact hne (List.isEmpty_iff.mp h)
  rw [if_neg h1, any_badItem_false_of_valid items hval]
  simp only [Bool.false_eq_true, if_false]
  rw [hcs]

theorem postRequests_valid_ok (st : Store) (pn : String) (items : List ItemInput)
    (fi : Option String) (now : Nat)
    (hpn : pn ≠ "") (hne : items ≠ [])
    (hval : ∀ it ∈ items, it.componentId ≠ 0 ∧ 0 < it.quantity)
    (havail : ∀ it ∈ items, ∃ c, lookupComp st it.componentId = some c ∧
      0 < c.quantity ∧ it.quantity ≤ c.quantity) :
    (postRequests st pn items fi now).isOk = true := by
  unfold postRequests
  have h1 : ¬(pn = "" ∨ items.isEmpty = true) := by
    rintro (h | h)
    · exact hpn h
    · exact hne (List.isEmpty_iff.mp h)
  rw [if_neg h1, any_badItem_false_of_valid items hval]
  simp only [Bool.false_eq_true, if_false]
  rw [(checkItemsStock_eq_none_iff st items).mpr havail]
  rfl

theorem postRequests_ok_inversion (st : Store) (pn : String) (items : List ItemInput)
    (fi : Option String) (now : Nat)
    (h : (postRequests st pn items fi now).isOk = true) :
    pn ≠ "" ∧ items ≠ [] ∧
    (∀ it ∈ items, it.componentId ≠ 0 ∧ 0 < it.quantity) ∧
    (∀ it ∈ items, ∃ c, lookupComp st it.componentId = some c ∧
      0 < c.quantity ∧ it.quantity ≤ c.quantity) := by
  unfold postRequests at h
  by_cases h1 : pn = "" ∨ items.isEmpty = true
  · rw [if_pos h1] at h
    cases h
  · rw [if_neg h1] at h
    push_neg at h1
    cases hb : items.any badItem with
    | true =>
      rw [hb] at h
      simp only [if_true] at h
      cases h
    | false =>
      rw [hb] at h
      simp only [Bool.false_eq_true, if_false] at h
      cases hcs : checkItemsStock st items with
      | some e =>
        rw [hcs] at h
        cases h
      | none =>
        refine ⟨h1.1, fun hnil => h1.2 (by simp [hnil]), ?_,
          (checkItemsStock_eq_none_iff st items).mp hcs⟩
        intro it hit
        have hbi := List.any_eq_false.mp hb it hit
        simp [badItem] at hbi
        exact ⟨hbi.1.1, by omega⟩

/-- C6.  Creating a request succeeds exactly when `personnelName` is
non-empty, the item list is non-empty, every item has a non-zero
`componentId` that resolves to a component, quantity > 0, and every item
passes the advisory stock check (`available > 0` and `requested ≤
available`); when every item resolves but some item fails the stock check,
the rejection carries the failing component's name and its available
quantity; the error branch commits nothing (no request row persisted). -/
theorem create_request_validation_spec (st : Store) (pn : String)
    (items : List ItemInput) (fi : Option String) (now : Nat) :
    ((postRequests st pn items fi now).isOk = true ↔
      (pn ≠ "" ∧ items ≠ [] ∧
       (∀ it ∈ items, it.componentId ≠ 0 ∧ 0 < it.quantity) ∧
       (∀ it ∈ items, ∃ c, lookupComp st it.componentId = some c ∧
         0 < c.quantity ∧ it.quantity ≤ c.quantity))) ∧
    ((pn ≠ "" ∧ items ≠ [] ∧
      (∀ it ∈ items, it.componentId ≠ 0 ∧ 0 < it.quantity) ∧
      (∀ it ∈ items, (lookupComp st it.componentId).isSome = true) ∧
      (∃ it ∈ items, ∃ c, lookupComp st it.componentId = some c ∧
        (c.quantity ≤ 0 ∨ c.quantity < it.quantity))) →
      ∃ it ∈ items, ∃ c, lookupComp st it.componentId = some c ∧
        (c.quantity ≤ 0 ∨ c.quantity < it.quantity) ∧
        postRequests st pn items fi now = .err
          { httpStatus := 400
            error := "Requested quantity for " ++ c.name ++ " exceeds available stock"
            available := some c.quantity }) ∧
    (∀ e, postRequests st pn items fi now = .err e →
      createdState st (postRequests st pn items fi now) = st) := by
  refine ⟨⟨postRequests_ok_inversion st pn items fi now, ?_⟩, ?_, ?_⟩
  · intro h
    exact postRequests_valid_ok st pn items fi now h.1 h.2.1 h.2.2.1 h.2.2.2
  · rintro ⟨hpn, hne, hval, hres, hbad⟩
    obtain ⟨it, hmem, c, hc, hq, heq⟩ := checkItemsStock_insufficient st items hres hbad
    exact ⟨it, hmem, c, hc, hq,
      postRequests_check_some st pn items fi now _ hpn hne hval heq⟩
  · intro e he
    rw [he]
    rfl

/-- C6, witness: a valid creation against `demoStore` succeeds. -/
theorem create_request_validation_spec_witness :
    (postRequests demoStore "Eve" [{ componentId := 1, quantity := 4 }] none 3).isOk = true :=
  (create_request_validation_spec demoStore "Eve"
      [{ componentId := 1, quantity := 4 }] none 3).1.mpr
    (by
      refine ⟨by decide, by decide, by decide, ?_⟩
      intro it hit
      rw [List.mem_singleton] at hit
      subst hit
      exact ⟨{ name := "Camera", quantity := 10, consumable := false }, rfl,
        by decide, by decide⟩)

/-! ### C7 — editing a PENDING request -/

theorem patchRequest_ok_inversion (st st' : Store) (id : Nat) (pn : String)
    (items : List ItemInput) (fi : Option String)
    (h : patchRequest st id pn items fi = .ok st') :
    ∃ existing, lookupReq st id = some existing ∧ existing.status = "PENDING" ∧
      checkItemsStock st items = none ∧
      st' = editApply st id pn items fi := by
  unfold patchRequest at h
  by_cases h1 : pn = "" ∨ items.isEmpty = true
  · rw [if_pos h1] at h
    cases h
  · rw [if_neg h1] at h
    cases hb : items.any badItem with
    | true =>
      rw [hb] at h
      simp only [if_true] at h
      cases h
    | false =>
      rw [hb] at h
      simp only [Bool.false_eq_true, if_false] at h
      cases hr : lookupReq st id with
      | none =>
        rw [hr] at h
        cases h
      | some existing =>
        rw [hr] at h
        simp only at h
        by_cases hs : existing.status ≠ "PENDING"
        · rw [if_pos hs] at h
          cases h
        · rw [if_neg hs] at h
          push_neg at hs
          cases hcs : checkItemsStock st items with
          | some e =>
            rw [hcs] at h
            cases h
          | none =>
            rw [hcs] at h
            simp only [ApiResult.ok.injEq] at h
            exact ⟨existing, rfl, hs, rfl, h.symm⟩

theorem patchRequest_conflict (st : Store) (id : Nat) (pn : String)
    (items : List ItemInput) (fi : Option String) (existing : Request)
    (hpn : pn ≠ "") (hne : items ≠ [])
    (hval : ∀ it ∈ items, it.componentId ≠ 0 ∧ 0 < it.quantity)
    (hr : lookupReq st id = some existing) (hs : existing.status ≠ "PENDING") :
    patchRequest st id pn items fi = .err
      { httpStatus := 400, error := "Only pending requests can be edited" } := by
  unfold patchRequest
  have h1 : ¬(pn = "" ∨ items.isEmpty = true) := by
    rintro (h | h)
    · exact hpn h
    · exact hne (List.isEmpty_iff.mp h)
  rw [if_neg h1, any_badItem_false_of_valid items hval]
  simp only [Bool.false_eq_true, if_false]
  rw [hr]
  simp only
  rw [if_pos hs]

theorem patchRequest_check_some (st : Store) (id : Nat) (pn : String)
    (items : List ItemInput) (fi : Option String) (existing : Request)
    (e : ErrorPayload)
    (hpn : pn ≠ "") (hne : items ≠ [])
    (hval : ∀ it ∈ items, it.componentId ≠ 0 ∧ 0 < it.quantity)
    (hr : lookupReq st id = some existing) (hs : existing.status = "PENDING")
    (hcs : checkItemsStock st items = some e) :
    patchRequest st id pn items fi = .err e := by
  unfold patchRequest
  have h1 : ¬(pn = "" ∨ items.isEmpty = true) := by
    rintro (h | h)
    · exact hpn h
    · exact hne (List.isEmpty_iff.mp h)
  rw [if_neg h1, any_badItem_false_of_valid items hval]
  simp only [Bool.false_eq_true, if_false]
  rw [hr]
  simp only
  rw [if_neg (fun hns => hns hs), hcs]

/-- C7.  Editing a request succeeds only while its status is PENDING (a
non-PENDING request is refused with the conflict error "Only pending
requests can be edited"); the new item set is re-validated with the same
InsufficientStock failure payload as creation; on success the item list is
wholesale-replaced (rows of other requests untouched), and neither the
components table nor the usage history changes. -/
theorem edit_request_spec (st : Store) (id : Nat) (pn : String)
    (items : List ItemInput) (fi : Option String) :
    (∀ st', patchRequest st id pn items fi = .ok st' →
      (∃ r, lookupReq st id = some r ∧ r.status = "PENDING") ∧
      st'.components = st.components ∧
      st'.usageHistory = st.usageHistory ∧
      st'.requestItems.filter (fun ri => ri.requestId == id) =
        items.map (mkItemRow id) ∧
      st'.requestItems.filter (fun ri => ri.requestId != id) =
        st.requestItems.filter (fun ri => ri.requestId != id)) ∧
    (∀ existing, lookupReq st id = some existing → existing.status ≠ "PENDING" →
      pn ≠ "" → items ≠ [] →
      (∀ it ∈ items, it.componentId ≠ 0 ∧ 0 < it.quantity) →
      patchRequest st id pn items fi = .err
        { httpStatus := 400, error := "Only pending requests can be edited" }) ∧
    (∀ existing, lookupReq st id = some existing → existing.status = "PENDING" →
      pn ≠ "" → items ≠ [] →
      (∀ it ∈ items, it.componentId ≠ 0 ∧ 0 < it.quantity) →
      (∀ it ∈ items, (lookupComp st it.componentId).isSome = true) →
      (∃ it ∈ items, ∃ c, lookupComp st it.componentId = some c ∧
        (c.quantity ≤ 0 ∨ c.quantity < it.quantity)) →
      ∃ it ∈ items, ∃ c, lookupComp st it.componentId = some c ∧
        (c.quantity ≤ 0 ∨ c.quantity < it.quantity) ∧
        patchRequest st id pn items fi = .err
          { httpStatus := 400
            error := "Requested quantity for " ++ c.name ++ " exceeds available stock"
            available := some c.quantity }) := by
  refine ⟨?_, ?_, ?_⟩
  · intro st' hok
    obtain ⟨existing, hr, hs, hcs, hst⟩ :=
      patchRequest_ok_inversion st st' id pn items fi hok
    subst hst
    refine ⟨⟨existing, hr, hs⟩, rfl, rfl, ?_, ?_⟩
    · show ((st.requestItems.filter (fun ri => ri.requestId != id)) ++
          items.map (mkItemRow id)).filter (fun ri => ri.requestId == id) = _
      rw [List.filter_append]
      have hfirst : (st.requestItems.filter
            (fun ri => ri.requestId != id)).filter (fun ri => ri.requestId == id) = [] := by
        rw [List.filter_eq_nil_iff]
        intro ri hri
        have hmem := List.of_mem_filter hri
        simp at hmem ⊢
        exact hmem
      have hsecond : (items.map (mkItemRow id)).filter
            (fun ri => ri.requestId == id) = items.map (mkItemRow id) := by
        rw [List.filter_eq_self]
        intro ri hri
        obtain ⟨it, hit, rfl⟩ := List.mem_map.mp hri
        simp [mkItemRow]
      rw [hfirst, hsecond, List.nil_append]
    · show ((st.requestItems.filter (fun ri => ri.requestId != id)) ++
          items.map (mkItemRow id)).filter (fun ri => ri.requestId != id) = _
      rw [List.filter_append]
      have h3 : (st.requestItems.filter
            (fun ri => ri.requestId != id)).filter (fun ri => ri.requestId != id) =
          st.requestItems.filter (fun ri => ri.requestId != id) := by
        rw [List.filter_eq_self]
        intro ri hri
        exact (List.mem_filter.mp hri).2
      have h4 : (items.map (mkItemRow id)).filter
            (fun ri => ri.requestId != id) = [] := by
        rw [List.filter_eq_nil_iff]
        intro ri hri
        obtain ⟨it, hit, rfl⟩ := List.mem_map.mp hri
        simp [mkItemRow]
      rw [h3, h4, List.append_nil]
  · intro existing hr hs hpn hne hval
    exact patchRequest_conflict st id pn items fi existing hpn hne hval hr hs
  · intro existing hr hs hpn hne hval hres hbad
    obtain ⟨it, hmem, c, hc, hq, heq⟩ := checkItemsStock_insufficient st items hres hbad
    exact ⟨it, hmem, c, hc, hq,
      patchRequest_check_some st id pn items fi existing _ hpn hne hval hr hs heq⟩

/-- `demoStore` after editing request 1 down to a single Resistor. -/
def demoEdited : Store :=
  (patchRequest demoStore 1 "Ada B" [{ componentId := 2, quantity := 1 }] none).okD demoStore

/-- C7, witness: the edit leaves the components table untouched. -/
theorem edit_request_spec_witness :
    demoEdited.components = demoStore.components :=
  ((edit_request_spec demoStore 1 "Ada B"
      [{ componentId := 2, quantity := 1 }] none).1 demoEdited rfl).2.1

/-! ### C8 — what the approval failure reports -/

/-- C8, counterexample.  The claim says a failed authoritative availability
check reports the failing component and its available quantity.  Approving
`demoLow` (Widget: 1 in stock, 5 requested) fails with payload
`{error: "Insufficient stock for Widget"}` — the component is named, but
the `available` field is absent (`none`), unlike the creation-time error
which does carry `available`. -/
theorem approve_error_lacks_available_cex :
    patchRequestStatus demoLow 1 "APPROVED" 3 = .err
      { httpStatus := 400, error := "Insufficient stock for Widget",
        available := none } ∧
    postRequests demoLow "Eve" [{ componentId := 3, quantity := 5 }] none 4 = .err
      { httpStatus := 400,
        error := "Requested quantity for Widget exceeds available stock",
        available := some 1 } := by
  decide

/-- C8, amended.  When the authoritative check of the APPROVED transition
fails, the reported payload names the first failing line item's component
(falling back to "item" when the name is empty) but contains no available
quantity; and the check fails exactly when some line item's snapshot
`component_quantity` is below its requested quantity (available = 0 is the
special case of that with a positive request). -/
theorem approve_error_names_component_only (st : Store) (id now : Nat)
    (row : Request)
    (hr : lookupReq st id = some row) (hne : (itemsOf st id).isEmpty = false) :
    (∀ badIt, (itemsOf st id).find?
        (fun it => decide (it.component_quantity < it.quantity)) = some badIt →
      patchRequestStatus st id "APPROVED" now = .err
        { httpStatus := 400
          error := "Insufficient stock for " ++
            (if badIt.component_name = "" then "item" else badIt.component_name)
          available := none }) ∧
    (((itemsOf st id).find?
        (fun it => decide (it.component_quantity < it.quantity))).isSome = true ↔
      ∃ it ∈ itemsOf st id, it.component_quantity < it.quantity) := by
  constructor
  · intro badIt hf
    rw [patchRequestStatus_approved_eq st id now row hr hne]
    unfold approveBranch
    rw [hf]
  · rw [List.find?_isSome]
    simp

/-- C8, witness for the amended theorem at `demoLow`. -/
theorem approve_error_names_component_only_witness :
    patchRequestStatus demoLow 1 "APPROVED" 3 = .err
      { httpStatus := 400
        error := "Insufficient stock for " ++
          (if ("Widget" : String) = "" then "item" else "Widget")
        available := none } :=
  (approve_error_names_component_only demoLow 1 3 demoLowRow
      (by decide) (by decide)).1
    { component_id := 3, quantity := 5, description := "", component_name := "Widget",
      unit := "pcs", consumable := true, component_quantity := 1 } (by decide)

/-! ### C9 — the consumable flag is derived from the category name -/

/-- C9.  `POST /components` derives the stored `consumable` flag solely
from `categoryName`: when a component row is created, the flag is true iff
the supplied `categoryName` matches `/consumable/i` (contains "consumable"
case-insensitively).  The request body carries no `consumable` field, so
the caller cannot set the flag directly.  A request without a
`categoryName` (or with an empty one) computes a falsy non-boolean JS value
whose INSERT into the NOT NULL boolean column fails (500): no component row
is created at all, so in particular none with `consumable = true`. -/
theorem component_consumable_from_category (st : Store) (input : ComponentInput) :
    (∀ cid st', postComponents st input = .ok (cid, st') →
      ∃ s comp, input.categoryName = some s ∧ s ≠ "" ∧
        st'.components = st.components ++ [(cid, comp)] ∧
        (comp.consumable = true ↔ containsConsumable s = true)) ∧
    ((input.categoryName = none ∨ input.categoryName = some "") →
      (postComponents st input).isOk = false) := by
  constructor
  · intro cid st' h
    unfold postComponents at h
    by_cases hn : input.name = ""
    · rw [if_pos hn] at h
      cases h
    · rw [if_neg hn] at h
      cases hjc : jsConsumable input.categoryName with
      | none =>
        rw [hjc] at h
        cases h
      | some b =>
        rw [hjc] at h
        simp only [ApiResult.ok.injEq, Prod.mk.injEq] at h
        obtain ⟨hcid, hst⟩ := h
        subst hcid
        subst hst
        cases hcat : input.categoryName with
        | none =>
          rw [hcat] at hjc
          cases hjc
        | some s =>
          rw [hcat] at hjc
          have hjc2 : (if s = "" then (none : Option Bool)
              else some (containsConsumable s)) = some b := hjc
          by_cases hs : s = ""
          · rw [if_pos hs] at hjc2
            cases hjc2
          · rw [if_neg hs] at hjc2
            simp only [Option.some.injEq] at hjc2
            refine ⟨s, _, rfl, hs, rfl, ?_⟩
            rw [hjc2]
  · intro hcat
    unfold postComponents
    by_cases hn : input.name = ""
    · rw [if_pos hn]
      rfl
    · rw [if_neg hn]
      have hjc : jsConsumable input.categoryName = none := by
        rcases hcat with h | h <;> rw [h] <;> simp [jsConsumable]
      rw [hjc]
      rfl

/-- Result of creating the component "Glue" with category "Consumables"
against `demoLow`. -/
def demoGlue : Nat × Store :=
  (postComponents demoLow
    { name := "Glue", categoryName := some "Consumables" }).okD (0, demoLow)

/-- C9, witness: the created Glue row's flag is exactly
`containsConsumable "Consumables"` (which is true). -/
theorem component_consumable_from_category_witness :
    ∃ s comp, (({ name := "Glue", categoryName := some "Consumables" } :
        ComponentInput)).categoryName = some s ∧ s ≠ "" ∧
      demoGlue.2.components = demoLow.components ++ [(demoGlue.1, comp)] ∧
      (comp.consumable = true ↔ containsConsumable s = true) :=
  (component_consumable_from_category demoLow
    { name := "Glue", categoryName := some "Consumables" }).1
    demoGlue.1 demoGlue.2 rfl

/-! ### C10 — deleting a component -/

theorem deleteComponent_ok_inversion (st st' : Store) (cid : Nat)
    (h : deleteComponent st cid = .ok st') :
    st' = { st with
      usageHistory := st.usageHistory.filter (fun u => u.componentId != cid),
      requestItems := st.requestItems.filter (fun ri => ri.componentId != cid),
      components := st.components.filter (fun p => p.1 != cid) } := by
  unfold deleteComponent at h
  cases hc : lookupComp st cid with
  | none =>
    rw [hc] at h
    cases h
  | some c =>
    rw [hc] at h
    simp only [ApiResult.ok.injEq] at h
    exact h.symm

theorem patchRequestStatus_noItems (st : Store) (id now : Nat) (status : String)
    (row : Request)
    (hvalid : (["PENDING", "APPROVED", "RETURNED"].contains status) = true)
    (hr : lookupReq st id = some row)
    (hempty : (itemsOf st id).isEmpty = true) :
    patchRequestStatus st id status now = .err
      { httpStatus := 400, error := "No items on this request" } := by
  unfold patchRequestStatus
  rw [hvalid]
  simp only [Bool.not_true, Bool.false_eq_true, if_false, hr, hempty, if_true]

/-- C10.  Deleting a component removes the component row, every usage
record referencing it, and every request line item referencing it, while
the request rows themselves stay; consequently a request whose line items
all referenced that component is left with an empty item list, and every
subsequent `setStatus` call on it — whatever the target status — fails the
non-empty-items entry condition ("No items on this request"). -/
theorem delete_component_cascade_spec (st st' : Store) (cid : Nat)
    (hok : deleteComponent st cid = .ok st') :
    st'.components = st.components.filter (fun p => p.1 != cid) ∧
    st'.usageHistory = st.usageHistory.filter (fun u => u.componentId != cid) ∧
    st'.requestItems = st.requestItems.filter (fun ri => ri.componentId != cid) ∧
    st'.requests = st.requests ∧
    (∀ rid r, lookupReq st rid = some r →
      (∀ ri ∈ st.requestItems, ri.requestId = rid → ri.componentId = cid) →
      ∀ target ∈ (["PENDING", "APPROVED", "RETURNED"] : List String), ∀ now,
        patchRequestStatus st' rid target now = .err
          { httpStatus := 400, error := "No items on this request" }) := by
  have hst := deleteComponent_ok_inversion st st' cid hok
  subst hst
  refine ⟨rfl, rfl, rfl, rfl, ?_⟩
  intro rid r hr hall target htarget now
  have hr' : lookupReq { st with
      usageHistory := st.usageHistory.filter (fun u => u.componentId != cid),
      requestItems := st.requestItems.filter (fun ri => ri.componentId != cid),
      components := st.components.filter (fun p => p.1 != cid) } rid = some r := hr
  have hitems : itemsOf { st with
      usageHistory := st.usageHistory.filter (fun u => u.componentId != cid),
      requestItems := st.requestItems.filter (fun ri => ri.componentId != cid),
      components := st.components.filter (fun p => p.1 != cid) } rid = [] := by
    unfold itemsOf
    rw [List.filterMap_eq_nil_iff]
    intro ri hri
    have hmem := List.mem_filter.mp hri
    by_cases hid : ri.requestId = rid
    · exfalso
      have hcid := hall ri hmem.1 hid
      have hbne := hmem.2
      simp [hcid] at hbne
    · simp [hid]
  have hvalid : ((["PENDING", "APPROVED", "RETURNED"] : List String).contains target)
      = true := by
    simp only [List.mem_cons, List.not_mem_nil, or_false] at htarget
    rcases htarget with rfl | rfl | rfl <;> rfl
  refine patchRequestStatus_noItems _ rid now target r hvalid hr' ?_
  rw [hitems]
  rfl

/-- `demoLow` after deleting component 3 (the only component its request
references). -/
def demoDeleted : Store := (deleteComponent demoLow 3).okD demoLow

/-- C10, witness: after the delete, approving the now-empty request 1
fails the non-empty-items entry condition. -/
theorem delete_component_cascade_spec_witness :
    patchRequestStatus demoDeleted 1 "APPROVED" 9 = .err
      { httpStatus := 400, error := "No items on this request" } :=
  (delete_component_cascade_spec demoLow demoDeleted 3 rfl).2.2.2.2
    1 demoLowRow (by decide) (by decide) "APPROVED" (by decide) 9
